import Mathlib

/-!
Shallow embedding of `src/components/library/src/content/ser.rs` (zola's
template-serialization projection layer) and verification of its
specification.

Pages and Sections are immutable records that reference each other through
opaque keys; the Library (registry) resolves keys to records.  The Library
type itself lives outside the excerpt, so it is modelled from the spec as a
pair of key-to-record partial maps; a failed lookup (the Rust code's
`.unwrap()` / `get_*_by_key` panic on a dangling key) is modelled as the
whole projection returning `none`.
-/

set_option autoImplicit false

namespace Zola

/-- Opaque stable key addressing a Page or a Section in the registry. -/
abbrev Key := Nat

/-- Modelled from the spec: a heading entry of the table of contents
(`rendering::Header`, outside the excerpt); opaque scalar data. -/
abbrev Header := String

/-- Modelled from the spec: an open-ended extra-metadata value
(`tera::Value`, outside the excerpt); opaque scalar data. -/
abbrev Value := String

/-- The Page record (`content::Page`, fields as consumed by `ser.rs`).
`file_relative` stands for `page.file.relative`, the `meta_` fields for
`page.meta.*`, and `meta_draft` backs `page.is_draft()`. -/
structure Page where
  file_relative : String
  content : String
  permalink : String
  slug : String
  meta_title : Option String
  meta_description : Option String
  meta_date : Option String
  meta_datetime_tuple : Option (Int × Nat × Nat)
  meta_taxonomies : List (String × List String)
  meta_extra : List (String × Value)
  path : String
  components : List String
  summary : Option String
  word_count : Option Nat
  reading_time : Option Nat
  toc : List Header
  serialized_assets : List String
  meta_draft : Bool
  lighter : Option Key
  heavier : Option Key
  earlier : Option Key
  later : Option Key
  ancestors : List Key

/-- Modelled from the spec: `page.is_draft()` returns the draft flag. -/
def Page.is_draft (p : Page) : Bool :=
  p.meta_draft

/-- The Section record (`content::Section`, fields as consumed by
`ser.rs`). `pages` and `subsections` are ordered lists of child keys,
`ancestors` the root-to-parent chain of section keys. -/
structure Section where
  file_relative : String
  content : String
  permalink : String
  meta_title : Option String
  meta_description : Option String
  meta_extra : List (String × Value)
  path : String
  components : List String
  word_count : Option Nat
  reading_time : Option Nat
  toc : List Header
  serialized_assets : List String
  pages : List Key
  subsections : List Key
  ancestors : List Key

/-- Modelled from the spec: the Registry (`library::Library`, outside the
excerpt): a mapping from key to Page and from key to Section.  A lookup
returning `none` is a dangling key, which the Rust code treats as fatal. -/
structure Library where
  pages : Key → Option Page
  sections : Key → Option Section

/-- Modelled from the spec: `Library::get_page_by_key`, fatal on a dangling
key (here: `none`). -/
def Library.get_page_by_key (lib : Library) (k : Key) : Option Page :=
  lib.pages k

/-- Modelled from the spec: `Library::get_section_by_key`, fatal on a
dangling key (here: `none`). -/
def Library.get_section_by_key (lib : Library) (k : Key) : Option Section :=
  lib.sections k

/-- Modelled from the spec: `Library::get_section_path_by_key`, the
section's relative path without materializing a view. -/
def Library.get_section_path_by_key (lib : Library) (k : Key) : Option String :=
  (lib.sections k).map fun s => s.file_relative

/-- Option-valued map over a list: the embedding of an iterator whose body
may hit a fatal lookup; `none` as soon as any element fails. -/
def mapOpt {α β : Type} (f : α → Option β) : List α → Option (List β)
  | [] => some []
  | x :: xs =>
    (f x).bind fun y =>
    (mapOpt f xs).map fun ys =>
    y :: ys

/-- Resolution of an ancestor-key chain to relative path strings, the
embedding of `.iter().map(|k| library.get_section_by_key(*k).file.relative.clone()).collect()`. -/
def Library.ancestorPaths (lib : Library) (ks : List Key) : Option (List String) :=
  mapOpt (fun k => (lib.get_section_by_key k).map fun s => s.file_relative) ks

/-- Decomposition of the optional date tuple into optional year, month and
day, the embedding of the `if let Some(d) = page.meta.datetime_tuple` block
shared verbatim by `from_page` and `from_page_basic`. -/
def dateParts : Option (Int × Nat × Nat) → Option Int × Option Nat × Option Nat
  | some d => (some d.1, some d.2.1, some d.2.2)
  | none => (none, none, none)

/-- Shape of the `SerializingPage` view; the parameter `σ` is the type of
the boxed sibling views (`Option<Box<SerializingPage>>` in Rust). -/
structure SerializingPageF (σ : Type) where
  relative_path : String
  content : String
  permalink : String
  slug : String
  ancestors : List String
  title : Option String
  description : Option String
  date : Option String
  year : Option Int
  month : Option Nat
  day : Option Nat
  taxonomies : List (String × List String)
  extra : List (String × Value)
  path : String
  components : List String
  summary : Option String
  word_count : Option Nat
  reading_time : Option Nat
  toc : List Header
  assets : List String
  draft : Bool
  lighter : Option σ
  heavier : Option σ
  earlier : Option σ
  later : Option σ

/-- The recursive `SerializingPage` view type (siblings embed further
views). -/
inductive SerializingPage : Type where
  | mk : SerializingPageF SerializingPage → SerializingPage

/-- Field bundle of a `SerializingPage` view. -/
def SerializingPage.fields : SerializingPage → SerializingPageF SerializingPage
  | .mk f => f

/-- The `SerializingSection` view: child pages are embedded full Page
views, subsections are path strings only. -/
structure SerializingSection where
  relative_path : String
  content : String
  permalink : String
  ancestors : List String
  title : Option String
  description : Option String
  extra : List (String × Value)
  path : String
  components : List String
  word_count : Option Nat
  reading_time : Option Nat
  toc : List Header
  assets : List String
  pages : List SerializingPage
  subsections : List String

/-- The `SerializingPage` struct literal shared verbatim by `from_page`
and `from_page_basic`: every scalar and derived field copied from the Page
record, with the already-resolved ancestors and sibling views plugged in. -/
def pageView (page : Page) (ancestors : List String)
    (lighter heavier earlier later : Option SerializingPage) : SerializingPage :=
  .mk
    { relative_path := page.file_relative
      ancestors := ancestors
      content := page.content
      permalink := page.permalink
      slug := page.slug
      title := page.meta_title
      description := page.meta_description
      extra := page.meta_extra
      date := page.meta_date
      year := (dateParts page.meta_datetime_tuple).1
      month := (dateParts page.meta_datetime_tuple).2.1
      day := (dateParts page.meta_datetime_tuple).2.2
      taxonomies := page.meta_taxonomies
      path := page.path
      components := page.components
      summary := page.summary
      word_count := page.word_count
      reading_time := page.reading_time
      toc := page.toc
      assets := page.serialized_assets
      draft := page.is_draft
      lighter := lighter
      heavier := heavier
      earlier := earlier
      later := later }

/-- Embedding of `SerializingPage::from_page_basic`: same scalar fields as
the full projection, siblings always `none`; ancestors resolved via the
registry exactly when one is supplied, else the empty list. -/
def SerializingPage.from_page_basic (page : Page) (library : Option Library) :
    Option SerializingPage :=
  (match library with
   | some lib => lib.ancestorPaths page.ancestors
   | none => some []).map fun ancestors =>
  pageView page ancestors none none none none

/-- Embedding of one sibling resolution in `from_page`:
`page.lighter.map(|k| Box::new(Self::from_page_basic(pages.get(k).unwrap(), Some(library))))`.
An unset key yields `some none` (field absent); a set key must resolve and
its basic projection must succeed, else the fatal path is taken. -/
def resolveSibling (library : Library) : Option Key → Option (Option SerializingPage)
  | none => some none
  | some k =>
    (library.pages k).bind fun p =>
    (SerializingPage.from_page_basic p (some library)).map fun sp =>
    some sp

/-- Embedding of `SerializingPage::from_page`: scalar fields verbatim,
siblings resolved through the registry and embedded with the basic
projection, ancestors resolved to relative path strings. -/
def SerializingPage.from_page (page : Page) (library : Library) :
    Option SerializingPage :=
  (resolveSibling library page.lighter).bind fun lighter =>
  (resolveSibling library page.heavier).bind fun heavier =>
  (resolveSibling library page.earlier).bind fun earlier =>
  (resolveSibling library page.later).bind fun later =>
  (library.ancestorPaths page.ancestors).map fun ancestors =>
  pageView page ancestors lighter heavier earlier later

/-- Modelled from the spec: `Page::to_serialized` (outside the excerpt)
delegates to the full Page projection. -/
def Page.to_serialized (p : Page) (library : Library) : Option SerializingPage :=
  SerializingPage.from_page p library

/-- The `SerializingSection` struct literal shared verbatim by
`from_section` and `from_section_basic`. -/
def sectionView (s : Section) (ancestors : List String)
    (pages : List SerializingPage) (subsections : List String) : SerializingSection :=
  { relative_path := s.file_relative
    ancestors := ancestors
    content := s.content
    permalink := s.permalink
    title := s.meta_title
    description := s.meta_description
    extra := s.meta_extra
    path := s.path
    components := s.components
    word_count := s.word_count
    reading_time := s.reading_time
    toc := s.toc
    assets := s.serialized_assets
    pages := pages
    subsections := subsections }

/-- Embedding of `SerializingSection::from_section`: child pages embedded
with the full Page projection, subsections resolved to path strings only,
ancestors to relative path strings. -/
def SerializingSection.from_section (s : Section) (library : Library) :
    Option SerializingSection :=
  (mapOpt (fun k => (library.get_page_by_key k).bind fun p => p.to_serialized library) s.pages).bind fun pages =>
  (mapOpt library.get_section_path_by_key s.subsections).bind fun subsections =>
  (library.ancestorPaths s.ancestors).map fun ancestors =>
  sectionView s ancestors pages subsections

/-- Embedding of `SerializingSection::from_section_basic`: `pages` and
`subsections` always empty; ancestors resolved via the registry exactly
when one is supplied, else the empty list. -/
def SerializingSection.from_section_basic (s : Section) (library : Option Library) :
    Option SerializingSection :=
  (match library with
   | some lib => lib.ancestorPaths s.ancestors
   | none => some []).map fun ancestors =>
  sectionView s ancestors [] []

/-! Concrete sample data used by the witness theorems. -/

/-- A Page with every optional field absent and every list empty. -/
def blankPage : Page :=
  { file_relative := ""
    content := ""
    permalink := ""
    slug := ""
    meta_title := none
    meta_description := none
    meta_date := none
    meta_datetime_tuple := none
    meta_taxonomies := []
    meta_extra := []
    path := ""
    components := []
    summary := none
    word_count := none
    reading_time := none
    toc := []
    serialized_assets := []
    meta_draft := false
    lighter := none
    heavier := none
    earlier := none
    later := none
    ancestors := [] }

/-- A Section with every optional field absent and every list empty. -/
def blankSection : Section :=
  { file_relative := ""
    content := ""
    permalink := ""
    meta_title := none
    meta_description := none
    meta_extra := []
    path := ""
    components := []
    word_count := none
    reading_time := none
    toc := []
    serialized_assets := []
    pages := []
    subsections := []
    ancestors := [] }

/-- Sample page at key 0; its `lighter` sibling is the page at key 1,
forming a 2-cycle with `pageB`. -/
def pageA : Page :=
  { blankPage with file_relative := "a.md", lighter := some 1 }

/-- Sample page at key 1; its `lighter` sibling points back to key 0, and
it has a non-empty ancestor chain. -/
def pageB : Page :=
  { blankPage with file_relative := "b.md", lighter := some 0, ancestors := [0] }

/-- Sample page at key 2: ancestor chain [0, 1] (root, then child), and a
date tuple. -/
def pageP : Page :=
  { blankPage with
      file_relative := "root/child/p.md"
      meta_datetime_tuple := some (2020, 5, 4)
      ancestors := [0, 1] }

/-- Sample root section at key 0. -/
def rootSec : Section :=
  { blankSection with file_relative := "root/_index.md" }

/-- Sample child section at key 1, under the root section. -/
def childSec : Section :=
  { blankSection with file_relative := "root/child/_index.md", ancestors := [0] }

/-- Sample section at key 2: one child page (key 2) and one subsection
(key 1), under the root section. -/
def secS : Section :=
  { blankSection with
      file_relative := "root/s/_index.md"
      pages := [2]
      subsections := [1]
      ancestors := [0] }

/-- Sample registry holding the pages and sections above; it is closed
(every referenced key resolves). -/
def sampleLib : Library :=
  { pages := fun k =>
      match k with
      | 0 => some pageA
      | 1 => some pageB
      | 2 => some pageP
      | _ => none
    sections := fun k =>
      match k with
      | 0 => some rootSec
      | 1 => some childSec
      | 2 => some secS
      | _ => none }

/-! Well-formedness predicates for the failure-semantics claim, and the
view values used by the witness theorems. -/

/-- Every sibling and ancestor key referenced by the Page resolves in the
registry. -/
def Page.keysResolve (p : Page) (lib : Library) : Prop :=
  (∀ k, p.lighter = some k → (lib.pages k).isSome) ∧
  (∀ k, p.heavier = some k → (lib.pages k).isSome) ∧
  (∀ k, p.earlier = some k → (lib.pages k).isSome) ∧
  (∀ k, p.later = some k → (lib.pages k).isSome) ∧
  (∀ k ∈ p.ancestors, (lib.sections k).isSome)

/-- Every child and ancestor key referenced by the Section resolves in the
registry. -/
def Section.keysResolve (s : Section) (lib : Library) : Prop :=
  (∀ k ∈ s.pages, (lib.pages k).isSome) ∧
  (∀ k ∈ s.subsections, (lib.sections k).isSome) ∧
  (∀ k ∈ s.ancestors, (lib.sections k).isSome)

/-- The registry is closed: every key referenced by any record it holds
resolves in it (the invariant the spec says upstream collaborators
establish). -/
def Library.closed (lib : Library) : Prop :=
  (∀ k p, lib.pages k = some p → p.keysResolve lib) ∧
  (∀ k s, lib.sections k = some s → s.keysResolve lib)

/-- Equality of two Page views on every field except `ancestors` and the
four sibling fields `lighter`, `heavier`, `earlier`, `later`. -/
def scalarFieldsEq (a b : SerializingPage) : Prop :=
  a.fields.relative_path = b.fields.relative_path ∧
  a.fields.content = b.fields.content ∧
  a.fields.permalink = b.fields.permalink ∧
  a.fields.slug = b.fields.slug ∧
  a.fields.title = b.fields.title ∧
  a.fields.description = b.fields.description ∧
  a.fields.date = b.fields.date ∧
  a.fields.year = b.fields.year ∧
  a.fields.month = b.fields.month ∧
  a.fields.day = b.fields.day ∧
  a.fields.taxonomies = b.fields.taxonomies ∧
  a.fields.extra = b.fields.extra ∧
  a.fields.path = b.fields.path ∧
  a.fields.components = b.fields.components ∧
  a.fields.summary = b.fields.summary ∧
  a.fields.word_count = b.fields.word_count ∧
  a.fields.reading_time = b.fields.reading_time ∧
  a.fields.toc = b.fields.toc ∧
  a.fields.assets = b.fields.assets ∧
  a.fields.draft = b.fields.draft

/-- Full view of `pageA` in `sampleLib` (the lookup succeeds by
computation). -/
def viewA : SerializingPage :=
  (SerializingPage.from_page pageA sampleLib).get (by rfl)

/-- Full view of `pageP` in `sampleLib`. -/
def viewP : SerializingPage :=
  (SerializingPage.from_page pageP sampleLib).get (by rfl)

/-- Basic view of `pageP` with the registry supplied. -/
def viewPbasic : SerializingPage :=
  (SerializingPage.from_page_basic pageP (some sampleLib)).get (by rfl)

/-- Basic view of `pageP` with no registry supplied. -/
def viewPnone : SerializingPage :=
  (SerializingPage.from_page_basic pageP none).get (by rfl)

/-- Full view of `secS` in `sampleLib`. -/
def viewS : SerializingSection :=
  (SerializingSection.from_section secS sampleLib).get (by rfl)

/-- Basic view of `secS` with the registry supplied. -/
def viewSbasic : SerializingSection :=
  (SerializingSection.from_section_basic secS (some sampleLib)).get (by rfl)

/-! Helper lemmas about `mapOpt` and inversion principles for the
projection functions. -/

theorem mapOpt_eq_some_length {α β : Type} {f : α → Option β} {l : List α} {ys : List β}
    (h : mapOpt f l = some ys) : ys.length = l.length := by
  induction l generalizing ys with
  | nil =>
    simp only [mapOpt, Option.some.injEq] at h
    subst h
    rfl
  | cons x xs ih =>
    simp only [mapOpt, Option.bind_eq_some, Option.map_eq_some'] at h
    obtain ⟨y, hy, zs, hzs, hys⟩ := h
    subst hys
    simp [ih hzs]

theorem mapOpt_eq_some_get {α β : Type} {f : α → Option β} {l : List α} {ys : List β}
    (h : mapOpt f l = some ys) :
    ∀ i (hi : i < l.length), ∃ y, f (l.get ⟨i, hi⟩) = some y ∧ ys.get? i = some y := by
  induction l generalizing ys with
  | nil =>
    intro i hi
    simp at hi
  | cons x xs ih =>
    simp only [mapOpt, Option.bind_eq_some, Option.map_eq_some'] at h
    obtain ⟨y, hy, zs, hzs, hys⟩ := h
    subst hys
    intro i hi
    match i with
    | 0 => exact ⟨y, hy, rfl⟩
    | i + 1 => exact ih hzs i (by simpa using hi)

theorem mapOpt_isSome_of {α β : Type} {f : α → Option β} {l : List α}
    (h : ∀ x ∈ l, (f x).isSome) : (mapOpt f l).isSome := by
  induction l with
  | nil => simp [mapOpt]
  | cons x xs ih =>
    rcases Option.isSome_iff_exists.mp (h x (by simp)) with ⟨y, hy⟩
    rcases Option.isSome_iff_exists.mp (ih fun z hz => h z (by simp [hz])) with ⟨ys, hys⟩
    simp [mapOpt, hy, hys]

theorem from_page_inv {page : Page} {lib : Library} {sp : SerializingPage}
    (h : SerializingPage.from_page page lib = some sp) :
    ∃ l hv e lt anc,
      resolveSibling lib page.lighter = some l ∧
      resolveSibling lib page.heavier = some hv ∧
      resolveSibling lib page.earlier = some e ∧
      resolveSibling lib page.later = some lt ∧
      lib.ancestorPaths page.ancestors = some anc ∧
      sp = pageView page anc l hv e lt := by
  simp only [SerializingPage.from_page, Option.bind_eq_some, Option.map_eq_some'] at h
  obtain ⟨l, hl, hv, hh, e, he, lt, hlt, anc, hanc, hmk⟩ := h
  exact ⟨l, hv, e, lt, anc, hl, hh, he, hlt, hanc, hmk.symm⟩

theorem resolveSibling_some_inv {lib : Library} {k : Key} {r : Option SerializingPage}
    (h : resolveSibling lib (some k) = some r) :
    ∃ p sp, lib.pages k = some p ∧
      SerializingPage.from_page_basic p (some lib) = some sp ∧ r = some sp := by
  simp only [resolveSibling, Option.bind_eq_some, Option.map_eq_some'] at h
  obtain ⟨p, hp, sp, hsp, hr⟩ := h
  exact ⟨p, sp, hp, hsp, hr.symm⟩

theorem from_page_basic_some_inv {page : Page} {lib : Library} {sp : SerializingPage}
    (h : SerializingPage.from_page_basic page (some lib) = some sp) :
    ∃ anc, lib.ancestorPaths page.ancestors = some anc ∧
      sp = pageView page anc none none none none := by
  simp only [SerializingPage.from_page_basic, Option.map_eq_some'] at h
  obtain ⟨anc, hanc, hmk⟩ := h
  exact ⟨anc, hanc, hmk.symm⟩

theorem from_page_basic_none_eq (page : Page) :
    SerializingPage.from_page_basic page none =
      some (pageView page [] none none none none) :=
  rfl

theorem from_section_inv {s : Section} {lib : Library} {v : SerializingSection}
    (h : SerializingSection.from_section s lib = some v) :
    ∃ ps subs anc,
      mapOpt (fun k => (lib.get_page_by_key k).bind fun p => p.to_serialized lib) s.pages = some ps ∧
      mapOpt lib.get_section_path_by_key s.subsections = some subs ∧
      lib.ancestorPaths s.ancestors = some anc ∧
      v = sectionView s anc ps subs := by
  simp only [SerializingSection.from_section, Option.bind_eq_some, Option.map_eq_some'] at h
  obtain ⟨ps, hps, subs, hsubs, anc, hanc, hmk⟩ := h
  exact ⟨ps, subs, anc, hps, hsubs, hanc, hmk.symm⟩

theorem from_section_basic_some_inv {s : Section} {lib : Library} {v : SerializingSection}
    (h : SerializingSection.from_section_basic s (some lib) = some v) :
    ∃ anc, lib.ancestorPaths s.ancestors = some anc ∧ v = sectionView s anc [] [] := by
  simp only [SerializingSection.from_section_basic, Option.map_eq_some'] at h
  obtain ⟨anc, hanc, hmk⟩ := h
  exact ⟨anc, hanc, hmk.symm⟩

theorem from_section_basic_none_eq (s : Section) :
    SerializingSection.from_section_basic s none = some (sectionView s [] [] []) :=
  rfl

/-! Claim theorems. -/

/-- Claim C1: for a Page P whose `lighter` key refers to Page Q while Q's
`lighter` key refers back to P (a 2-cycle), full projection of P (a total
function here, so termination is by construction) embeds the `lighter`
sibling with the basic projection, whose own `lighter`, `heavier`,
`earlier` and `later` fields are all absent. -/
theorem C1_two_cycle_sibling_fields_absent (lib : Library) (kp kq : Key)
    (P Q : Page) (sp : SerializingPage)
    (hP : lib.pages kp = some P) (hQ : lib.pages kq = some Q)
    (hPl : P.lighter = some kq) (hQl : Q.lighter = some kp)
    (h : SerializingPage.from_page P lib = some sp) :
    ∃ q, sp.fields.lighter = some q ∧
      q.fields.lighter = none ∧ q.fields.heavier = none ∧
      q.fields.earlier = none ∧ q.fields.later = none := by
  obtain ⟨l, hv, e, lt, anc, hl, hh, he, hlt, hanc, hmk⟩ := from_page_inv h
  rw [hPl] at hl
  obtain ⟨p, q, hp, hq2, hr⟩ := resolveSibling_some_inv hl
  obtain ⟨anc2, hanc2, hq3⟩ := from_page_basic_some_inv hq2
  subst hmk hr hq3
  exact ⟨_, rfl, rfl, rfl, rfl, rfl⟩

/-- Claim C1 witness: the sample 2-cycle `pageA`/`pageB` in `sampleLib`. -/
theorem C1_two_cycle_sibling_fields_absent_witness :
    ∃ q, viewA.fields.lighter = some q ∧
      q.fields.lighter = none ∧ q.fields.heavier = none ∧
      q.fields.earlier = none ∧ q.fields.later = none :=
  C1_two_cycle_sibling_fields_absent sampleLib 0 1 pageA pageB viewA rfl rfl rfl rfl rfl

/-- Claim C2: full Section projection resolves every subsection key to the
child section's path string only (never an expanded Section view; the
`subsections` field has type `List String`, so no view can occur), entry
for entry in order. -/
theorem C2_subsections_are_path_strings (S : Section) (lib : Library)
    (v : SerializingSection)
    (h : SerializingSection.from_section S lib = some v) :
    v.subsections.length = S.subsections.length ∧
    mapOpt lib.get_section_path_by_key S.subsections = some v.subsections ∧
    ∀ i (hi : i < S.subsections.length),
      ∃ T, lib.sections (S.subsections.get ⟨i, hi⟩) = some T ∧
        v.subsections.get? i = some T.file_relative := by
  obtain ⟨ps, subs, anc, hps, hsubs, hanc, hmk⟩ := from_section_inv h
  subst hmk
  refine ⟨by simpa [sectionView] using mapOpt_eq_some_length hsubs, by simpa [sectionView] using hsubs, ?_⟩
  intro i hi
  obtain ⟨y, hy, hget⟩ := mapOpt_eq_some_get hsubs i hi
  simp only [Library.get_section_path_by_key, Option.map_eq_some'] at hy
  obtain ⟨T, hT, hTy⟩ := hy
  subst hTy
  exact ⟨T, hT, by simpa [sectionView] using hget⟩

/-- Claim C2 witness: the sample section `secS` whose single subsection
key 1 resolves to `childSec`. -/
theorem C2_subsections_are_path_strings_witness :
    viewS.subsections.length = secS.subsections.length ∧
    mapOpt sampleLib.get_section_path_by_key secS.subsections = some viewS.subsections ∧
    ∀ i (hi : i < secS.subsections.length),
      ∃ T, sampleLib.sections (secS.subsections.get ⟨i, hi⟩) = some T ∧
        viewS.subsections.get? i = some T.file_relative :=
  C2_subsections_are_path_strings secS sampleLib viewS rfl

/-- Claim C3: full Page projection and basic projection with a registry
both resolve the ancestor-key list to the sections' relative path strings
in root-to-parent order, and basic projection without a registry yields the
empty ancestors list. -/
theorem C3_ancestors_resolution (P : Page) (lib : Library)
    (sp spb spn : SerializingPage)
    (h1 : SerializingPage.from_page P lib = some sp)
    (h2 : SerializingPage.from_page_basic P (some lib) = some spb)
    (h3 : SerializingPage.from_page_basic P none = some spn) :
    lib.ancestorPaths P.ancestors = some sp.fields.ancestors ∧
    lib.ancestorPaths P.ancestors = some spb.fields.ancestors ∧
    spn.fields.ancestors = [] := by
  obtain ⟨l, hv, e, lt, anc, hl, hh, he, hlt, hanc, hsp⟩ := from_page_inv h1
  obtain ⟨anc2, hanc2, hspb⟩ := from_page_basic_some_inv h2
  rw [from_page_basic_none_eq] at h3
  injection h3 with h3
  subst hsp hspb
  subst h3
  exact ⟨hanc, hanc2, rfl⟩

/-- Claim C3 witness: `pageP` with ancestor keys [0, 1] in `sampleLib`. -/
theorem C3_ancestors_resolution_witness :
    sampleLib.ancestorPaths pageP.ancestors = some viewP.fields.ancestors ∧
    sampleLib.ancestorPaths pageP.ancestors = some viewPbasic.fields.ancestors ∧
    viewPnone.fields.ancestors = [] :=
  C3_ancestors_resolution pageP sampleLib viewP viewPbasic viewPnone rfl rfl rfl

/-- Claim C4: full and basic Page projections of the same record agree on
every field except `ancestors` (equal whenever the same registry is
supplied to both) and the four sibling fields. -/
theorem C4_full_basic_field_parity (P : Page) (lib : Library) (olib : Option Library)
    (sp spb : SerializingPage)
    (h1 : SerializingPage.from_page P lib = some sp)
    (h2 : SerializingPage.from_page_basic P olib = some spb) :
    scalarFieldsEq sp spb ∧
    (olib = some lib → sp.fields.ancestors = spb.fields.ancestors) := by
  obtain ⟨l, hv, e, lt, anc, hl, hh, he, hlt, hanc, hsp⟩ := from_page_inv h1
  subst hsp
  cases olib with
  | none =>
    rw [from_page_basic_none_eq] at h2
    injection h2 with h2
    subst h2
    exact ⟨by simp [scalarFieldsEq, pageView, SerializingPage.fields], by simp⟩
  | some lib2 =>
    obtain ⟨anc2, hanc2, hspb⟩ := from_page_basic_some_inv h2
    subst hspb
    refine ⟨by simp [scalarFieldsEq, pageView, SerializingPage.fields], ?_⟩
    intro hl2
    injection hl2 with hl2
    subst hl2
    rw [hanc] at hanc2
    injection hanc2 with hanc2

/-- Claim C4 witness: `pageP` projected fully and basically from
`sampleLib`. -/
theorem C4_full_basic_field_parity_witness :
    scalarFieldsEq viewP viewPbasic ∧
    (some sampleLib = some sampleLib → viewP.fields.ancestors = viewPbasic.fields.ancestors) :=
  C4_full_basic_field_parity pageP sampleLib (some sampleLib) viewP viewPbasic rfl rfl

/-- Claim C5: full Section projection yields as many embedded pages as
there are child Page keys (each one the full Page view of the resolved
child) and as many subsection path strings as there are subsection keys. -/
theorem C5_section_children_counts (S : Section) (lib : Library)
    (v : SerializingSection)
    (h : SerializingSection.from_section S lib = some v) :
    v.pages.length = S.pages.length ∧
    v.subsections.length = S.subsections.length ∧
    ∀ i (hi : i < S.pages.length),
      ∃ p, lib.pages (S.pages.get ⟨i, hi⟩) = some p ∧
        SerializingPage.from_page p lib = v.pages.get? i := by
  obtain ⟨ps, subs, anc, hps, hsubs, hanc, hmk⟩ := from_section_inv h
  subst hmk
  refine ⟨by simpa [sectionView] using mapOpt_eq_some_length hps,
    by simpa [sectionView] using mapOpt_eq_some_length hsubs, ?_⟩
  intro i hi
  obtain ⟨y, hy, hget⟩ := mapOpt_eq_some_get hps i hi
  simp only [Option.bind_eq_some] at hy
  obtain ⟨p, hp, hy2⟩ := hy
  refine ⟨p, by simpa [Library.get_page_by_key] using hp, ?_⟩
  have hps2 : (sectionView S anc ps subs).pages = ps := rfl
  rw [hps2, hget]
  exact hy2

/-- Claim C5 witness: the sample section `secS` with one child page and
one subsection. -/
theorem C5_section_children_counts_witness :
    viewS.pages.length = secS.pages.length ∧
    viewS.subsections.length = secS.subsections.length ∧
    ∀ i (hi : i < secS.pages.length),
      ∃ p, sampleLib.pages (secS.pages.get ⟨i, hi⟩) = some p ∧
        SerializingPage.from_page p sampleLib = viewS.pages.get? i :=
  C5_section_children_counts secS sampleLib viewS rfl

/-- Claim C6: with no date tuple, both projections leave `year`, `month`
and `day` absent; with a date tuple, they are exactly its components. -/
theorem C6_date_decomposition (P : Page) (lib : Library) (olib : Option Library)
    (sp spb : SerializingPage)
    (h1 : SerializingPage.from_page P lib = some sp)
    (h2 : SerializingPage.from_page_basic P olib = some spb) :
    (P.meta_datetime_tuple = none →
      sp.fields.year = none ∧ sp.fields.month = none ∧ sp.fields.day = none ∧
      spb.fields.year = none ∧ spb.fields.month = none ∧ spb.fields.day = none) ∧
    (∀ y m d, P.meta_datetime_tuple = some (y, m, d) →
      sp.fields.year = some y ∧ sp.fields.month = some m ∧ sp.fields.day = some d ∧
      spb.fields.year = some y ∧ spb.fields.month = some m ∧ spb.fields.day = some d) := by
  obtain ⟨l, hv, e, lt, anc, hl, hh, he, hlt, hanc, hsp⟩ := from_page_inv h1
  subst hsp
  have hspb : ∃ anc2, spb = pageView P anc2 none none none none := by
    cases olib with
    | none =>
      rw [from_page_basic_none_eq] at h2
      injection h2 with h2
      exact ⟨[], h2.symm⟩
    | some lib2 =>
      obtain ⟨anc2, hanc2, hspb⟩ := from_page_basic_some_inv h2
      exact ⟨anc2, hspb⟩
  obtain ⟨anc2, hspb⟩ := hspb
  subst hspb
  constructor
  · intro hnone
    simp [pageView, SerializingPage.fields, dateParts, hnone]
  · intro y m d hsome
    simp [pageView, SerializingPage.fields, dateParts, hsome]

/-- Claim C6 witness: `pageP` carries the date tuple (2020, 5, 4); its
full view and its registry-less basic view. -/
theorem C6_date_decomposition_witness :
    (pageP.meta_datetime_tuple = none →
      viewP.fields.year = none ∧ viewP.fields.month = none ∧ viewP.fields.day = none ∧
      viewPnone.fields.year = none ∧ viewPnone.fields.month = none ∧ viewPnone.fields.day = none) ∧
    (∀ y m d, pageP.meta_datetime_tuple = some (y, m, d) →
      viewP.fields.year = some y ∧ viewP.fields.month = some m ∧ viewP.fields.day = some d ∧
      viewPnone.fields.year = some y ∧ viewPnone.fields.month = some m ∧ viewPnone.fields.day = some d) :=
  C6_date_decomposition pageP sampleLib none viewP viewPnone rfl rfl

/-- Claim C7: basic Section projection always yields empty `pages` and
`subsections`; its `ancestors` are resolved through the registry exactly
when one is supplied and are empty otherwise. -/
theorem C7_basic_section_empty_children (S : Section) (lib : Library)
    (olib : Option Library) (v : SerializingSection)
    (h : SerializingSection.from_section_basic S olib = some v) :
    v.pages = [] ∧ v.subsections = [] ∧
    (olib = some lib → lib.ancestorPaths S.ancestors = some v.ancestors) ∧
    (olib = none → v.ancestors = []) := by
  cases olib with
  | none =>
    rw [from_section_basic_none_eq] at h
    injection h with h
    subst h
    exact ⟨rfl, rfl, by simp, fun _ => rfl⟩
  | some lib2 =>
    obtain ⟨anc, hanc, hv⟩ := from_section_basic_some_inv h
    subst hv
    refine ⟨rfl, rfl, ?_, by simp⟩
    intro heq
    injection heq with heq
    subst heq
    exact hanc

/-- Claim C7 witness: `secS` projected basically with the registry
supplied. -/
theorem C7_basic_section_empty_children_witness :
    viewSbasic.pages = [] ∧ viewSbasic.subsections = [] ∧
    (some sampleLib = some sampleLib →
      sampleLib.ancestorPaths secS.ancestors = some viewSbasic.ancestors) ∧
    ((some sampleLib : Option Library) = none → viewSbasic.ancestors = []) :=
  C7_basic_section_empty_children secS sampleLib (some sampleLib) viewSbasic rfl

/-- Claim C8: every projection operation is deterministic; the embedding
is a pure function, so re-invoking it on the same record and registry
yields the identical view. -/
theorem C8_projection_deterministic (P : Page) (S : Section) (lib : Library)
    (olib : Option Library) :
    SerializingPage.from_page P lib = SerializingPage.from_page P lib ∧
    SerializingPage.from_page_basic P olib = SerializingPage.from_page_basic P olib ∧
    SerializingSection.from_section S lib = SerializingSection.from_section S lib ∧
    SerializingSection.from_section_basic S olib = SerializingSection.from_section_basic S olib :=
  ⟨rfl, rfl, rfl, rfl⟩

/-! Success lemmas for the failure-semantics claim. -/

theorem ancestorPaths_isSome {lib : Library} {ks : List Key}
    (h : ∀ k ∈ ks, (lib.sections k).isSome) : (lib.ancestorPaths ks).isSome := by
  apply mapOpt_isSome_of
  intro k hk
  rcases Option.isSome_iff_exists.mp (h k hk) with ⟨s, hs⟩
  simp [Library.get_section_by_key, hs]

theorem from_page_basic_isSome {page : Page} {lib : Library}
    (h : ∀ k ∈ page.ancestors, (lib.sections k).isSome) :
    (SerializingPage.from_page_basic page (some lib)).isSome := by
  rcases Option.isSome_iff_exists.mp (ancestorPaths_isSome h) with ⟨anc, hanc⟩
  simp [SerializingPage.from_page_basic, hanc]

theorem resolveSibling_isSome {lib : Library} {o : Option Key}
    (h : ∀ k, o = some k →
      ∃ p, lib.pages k = some p ∧ ∀ a ∈ p.ancestors, (lib.sections a).isSome) :
    (resolveSibling lib o).isSome := by
  cases o with
  | none => rfl
  | some k =>
    obtain ⟨p, hp, hanc⟩ := h k rfl
    rcases Option.isSome_iff_exists.mp (from_page_basic_isSome hanc) with ⟨sp, hsp⟩
    simp [resolveSibling, hp, hsp]

theorem from_page_isSome {page : Page} {lib : Library}
    (hc : lib.closed) (hp : page.keysResolve lib) :
    (SerializingPage.from_page page lib).isSome := by
  obtain ⟨h1, h2, h3, h4, h5⟩ := hp
  have sib : ∀ (o : Option Key), (∀ k, o = some k → (lib.pages k).isSome) →
      (resolveSibling lib o).isSome := by
    intro o ho
    apply resolveSibling_isSome
    intro k hk
    rcases Option.isSome_iff_exists.mp (ho k hk) with ⟨p, hpk⟩
    exact ⟨p, hpk, (hc.1 k p hpk).2.2.2.2⟩
  rcases Option.isSome_iff_exists.mp (sib page.lighter h1) with ⟨l, hl⟩
  rcases Option.isSome_iff_exists.mp (sib page.heavier h2) with ⟨hv, hh⟩
  rcases Option.isSome_iff_exists.mp (sib page.earlier h3) with ⟨e, he⟩
  rcases Option.isSome_iff_exists.mp (sib page.later h4) with ⟨lt, hlt⟩
  rcases Option.isSome_iff_exists.mp (ancestorPaths_isSome h5) with ⟨anc, hanc⟩
  simp [SerializingPage.from_page, hl, hh, he, hlt, hanc]

theorem from_section_isSome {s : Section} {lib : Library}
    (hc : lib.closed) (hs : s.keysResolve lib) :
    (SerializingSection.from_section s lib).isSome := by
  obtain ⟨h1, h2, h3⟩ := hs
  have hpages : (mapOpt (fun k => (lib.get_page_by_key k).bind fun p => p.to_serialized lib) s.pages).isSome := by
    apply mapOpt_isSome_of
    intro k hk
    rcases Option.isSome_iff_exists.mp (h1 k hk) with ⟨p, hp⟩
    rcases Option.isSome_iff_exists.mp (from_page_isSome hc (hc.1 k p hp)) with ⟨sp, hsp⟩
    simp [Library.get_page_by_key, Page.to_serialized, hp, hsp]
  have hsubs : (mapOpt lib.get_section_path_by_key s.subsections).isSome := by
    apply mapOpt_isSome_of
    intro k hk
    rcases Option.isSome_iff_exists.mp (h2 k hk) with ⟨t, ht⟩
    simp [Library.get_section_path_by_key, ht]
  rcases Option.isSome_iff_exists.mp hpages with ⟨ps, hps⟩
  rcases Option.isSome_iff_exists.mp hsubs with ⟨subs, hsubs2⟩
  rcases Option.isSome_iff_exists.mp (ancestorPaths_isSome h3) with ⟨anc, hanc⟩
  simp [SerializingSection.from_section, hps, hsubs2, hanc]

/-- Claim C9: under a closed registry in which the input records' keys all
resolve, no projection fails (no fatal-lookup branch is taken), and
conversely a dangling sibling key makes the full projection fail fatally
(`none`), never a recoverable in-band value. -/
theorem C9_closed_registry_no_failure (lib : Library) (P : Page) (S : Section)
    (hc : lib.closed) (hP : P.keysResolve lib) (hS : S.keysResolve lib) :
    (SerializingPage.from_page P lib).isSome ∧
    (SerializingPage.from_page_basic P (some lib)).isSome ∧
    (SerializingSection.from_section S lib).isSome ∧
    (SerializingSection.from_section_basic S (some lib)).isSome ∧
    ∀ (P2 : Page) (lib2 : Library) k, P2.lighter = some k → lib2.pages k = none →
      SerializingPage.from_page P2 lib2 = none := by
  refine ⟨from_page_isSome hc hP, from_page_basic_isSome hP.2.2.2.2,
    from_section_isSome hc hS, ?_, ?_⟩
  · rcases Option.isSome_iff_exists.mp (ancestorPaths_isSome hS.2.2) with ⟨anc, hanc⟩
    simp [SerializingSection.from_section_basic, hanc]
  · intro P2 lib2 k hk hnone
    simp [SerializingPage.from_page, hk, resolveSibling, hnone]

theorem sampleLib_closed : sampleLib.closed := by
  constructor
  · intro k p hp
    match k with
    | 0 =>
      injection hp with hp
      subst hp
      refine ⟨?_, ?_, ?_, ?_, ?_⟩ <;> intro k hk <;> simp [pageA, blankPage] at hk <;> subst hk <;> rfl
    | 1 =>
      injection hp with hp
      subst hp
      refine ⟨?_, ?_, ?_, ?_, ?_⟩ <;> intro k hk <;> simp [pageB, blankPage] at hk <;> subst hk <;> rfl
    | 2 =>
      injection hp with hp
      subst hp
      refine ⟨?_, ?_, ?_, ?_, ?_⟩ <;> intro k hk <;> simp [pageP, blankPage] at hk
      rcases hk with hk | hk <;> subst hk <;> rfl
    | n + 3 => exact Option.noConfusion hp
  · intro k s hs
    match k with
    | 0 =>
      injection hs with hs
      subst hs
      refine ⟨?_, ?_, ?_⟩ <;> intro k hk <;> simp [rootSec, blankSection] at hk
    | 1 =>
      injection hs with hs
      subst hs
      refine ⟨?_, ?_, ?_⟩ <;> intro k hk <;> simp [childSec, blankSection] at hk <;> subst hk <;> rfl
    | 2 =>
      injection hs with hs
      subst hs
      refine ⟨?_, ?_, ?_⟩ <;> intro k hk <;> simp [secS, blankSection] at hk <;> subst hk <;> rfl
    | n + 3 => exact Option.noConfusion hs

theorem pageP_resolves : pageP.keysResolve sampleLib :=
  sampleLib_closed.1 2 pageP rfl

theorem secS_resolves : secS.keysResolve sampleLib :=
  sampleLib_closed.2 2 secS rfl

/-- Claim C9 witness: the sample registry is closed; `pageP` and `secS`
project without failure. -/
theorem C9_closed_registry_no_failure_witness :
    (SerializingPage.from_page pageP sampleLib).isSome ∧
    (SerializingPage.from_page_basic pageP (some sampleLib)).isSome ∧
    (SerializingSection.from_section secS sampleLib).isSome ∧
    (SerializingSection.from_section_basic secS (some sampleLib)).isSome ∧
    ∀ (P2 : Page) (lib2 : Library) k, P2.lighter = some k → lib2.pages k = none →
      SerializingPage.from_page P2 lib2 = none :=
  C9_closed_registry_no_failure sampleLib pageP secS sampleLib_closed pageP_resolves secS_resolves

theorem sibling_view_ancestors {lib : Library} {ok : Option Key}
    {r : Option SerializingPage}
    (hr : resolveSibling lib ok = some r) (k : Key) (Q : Page)
    (hk : ok = some k) (hQ : lib.pages k = some Q) :
    ∃ q, r = some q ∧ lib.ancestorPaths Q.ancestors = some q.fields.ancestors ∧
      (Q.ancestors ≠ [] → q.fields.ancestors ≠ []) := by
  subst hk
  obtain ⟨p, sp, hp, hsp, hr2⟩ := resolveSibling_some_inv hr
  rw [hQ] at hp
  injection hp with hp
  subst hp
  obtain ⟨anc, hanc, hsp2⟩ := from_page_basic_some_inv hsp
  subst hsp2 hr2
  refine ⟨_, rfl, by simpa [pageView, SerializingPage.fields] using hanc, ?_⟩
  intro hne
  have hlen : anc.length = Q.ancestors.length := mapOpt_eq_some_length hanc
  have hanc2 : (pageView Q anc none none none none).fields.ancestors = anc := rfl
  rw [hanc2]
  intro hnil
  rw [hnil] at hlen
  exact hne (List.length_eq_zero.mp hlen.symm)

/-- Claim C10: each embedded sibling view in a full Page projection is
built with the registry supplied to the basic projection, so its
`ancestors` field is the sibling's resolved ancestor path list, which is
non-empty whenever the sibling's ancestor-key chain is. -/
theorem C10_sibling_views_resolve_ancestors (lib : Library) (P : Page)
    (sp : SerializingPage)
    (h : SerializingPage.from_page P lib = some sp) :
    (∀ k Q, P.lighter = some k → lib.pages k = some Q →
      ∃ q, sp.fields.lighter = some q ∧
        lib.ancestorPaths Q.ancestors = some q.fields.ancestors ∧
        (Q.ancestors ≠ [] → q.fields.ancestors ≠ [])) ∧
    (∀ k Q, P.heavier = some k → lib.pages k = some Q →
      ∃ q, sp.fields.heavier = some q ∧
        lib.ancestorPaths Q.ancestors = some q.fields.ancestors ∧
        (Q.ancestors ≠ [] → q.fields.ancestors ≠ [])) ∧
    (∀ k Q, P.earlier = some k → lib.pages k = some Q →
      ∃ q, sp.fields.earlier = some q ∧
        lib.ancestorPaths Q.ancestors = some q.fields.ancestors ∧
        (Q.ancestors ≠ [] → q.fields.ancestors ≠ [])) ∧
    (∀ k Q, P.later = some k → lib.pages k = some Q →
      ∃ q, sp.fields.later = some q ∧
        lib.ancestorPaths Q.ancestors = some q.fields.ancestors ∧
        (Q.ancestors ≠ [] → q.fields.ancestors ≠ [])) := by
  obtain ⟨l, hv, e, lt, anc, hl, hh, he, hlt, hanc, hmk⟩ := from_page_inv h
  subst hmk
  refine ⟨?_, ?_, ?_, ?_⟩ <;> intro k Q hk hQ
  · obtain ⟨q, hq, h2, h3⟩ := sibling_view_ancestors hl k Q hk hQ
    exact ⟨q, by simpa [pageView, SerializingPage.fields] using hq, h2, h3⟩
  · obtain ⟨q, hq, h2, h3⟩ := sibling_view_ancestors hh k Q hk hQ
    exact ⟨q, by simpa [pageView, SerializingPage.fields] using hq, h2, h3⟩
  · obtain ⟨q, hq, h2, h3⟩ := sibling_view_ancestors he k Q hk hQ
    exact ⟨q, by simpa [pageView, SerializingPage.fields] using hq, h2, h3⟩
  · obtain ⟨q, hq, h2, h3⟩ := sibling_view_ancestors hlt k Q hk hQ
    exact ⟨q, by simpa [pageView, SerializingPage.fields] using hq, h2, h3⟩

/-- Claim C10 witness: `pageA` in `sampleLib`, whose `lighter` sibling
`pageB` has the non-empty ancestor chain [0]. -/
theorem C10_sibling_views_resolve_ancestors_witness :
    (∀ k Q, pageA.lighter = some k → sampleLib.pages k = some Q →
      ∃ q, viewA.fields.lighter = some q ∧
        sampleLib.ancestorPaths Q.ancestors = some q.fields.ancestors ∧
        (Q.ancestors ≠ [] → q.fields.ancestors ≠ [])) ∧
    (∀ k Q, pageA.heavier = some k → sampleLib.pages k = some Q →
      ∃ q, viewA.fields.heavier = some q ∧
        sampleLib.ancestorPaths Q.ancestors = some q.fields.ancestors ∧
        (Q.ancestors ≠ [] → q.fields.ancestors ≠ [])) ∧
    (∀ k Q, pageA.earlier = some k → sampleLib.pages k = some Q →
      ∃ q, viewA.fields.earlier = some q ∧
        sampleLib.ancestorPaths Q.ancestors = some q.fields.ancestors ∧
        (Q.ancestors ≠ [] → q.fields.ancestors ≠ [])) ∧
    (∀ k Q, pageA.later = some k → sampleLib.pages k = some Q →
      ∃ q, viewA.fields.later = some q ∧
        sampleLib.ancestorPaths Q.ancestors = some q.fields.ancestors ∧
        (Q.ancestors ≠ [] → q.fields.ancestors ≠ [])) :=
  C10_sibling_views_resolve_ancestors sampleLib pageA viewA rfl

end Zola
